import Mathlib

/-!
Verification of the `formwizard` step-sequencing core (`formwizard/forms.py`
and `formwizard/views.py`) against its natural-language specification.

The embedding is shallow: Django form classes become records of functions on
the bound data, the per-user wizard run state becomes an explicit `Storage`
record threaded through every operation, and Python dict/SortedDict behaviour
is modelled by insertion-ordered association lists.  The storage backends
themselves (module `formwizard.storage`, session- and cookie-based) are not
part of the sources verified here; `Storage` and its operations are modelled
from the specification's storage-interface contract.
-/

namespace FormWizardLib

/-- Raw submitted field values for one step, as a form's `data` dict
(field name to raw string value). -/
abbrev FormData := List (String × String)

/-- One cleaned record: field name to cleaned value.  Cleaned values are
modelled as strings; only their identity matters to the claims. -/
abbrev Record := List (String × String)

/-- The `cleaned_data` attribute of a bound form: a dict for an ordinary
form, or a list of records for a FormSet (the
`isinstance(form_obj.cleaned_data, list)` branch of `get_all_cleaned_data`). -/
inductive CleanedData
  | dict (d : Record)
  | flist (l : List Record)
deriving DecidableEq

/-- Models a Django form class bound to one step: whether binding the given
data validates (`form.is_valid()`), the resulting `cleaned_data`, and whether
the class is a `ModelForm` subclass (the `issubclass(..., forms.ModelForm)`
test in `get_form`).  A Django form with `data=None` is unbound and
`is_valid()` is `False`; concrete form classes used below keep to that. -/
structure FormClass where
  is_valid : Option FormData → Bool
  cleaned_data : Option FormData → CleanedData
  isModelForm : Bool

/-- A bound form instance exactly as `FormWizard.get_form` constructs it: the
step name (which also fixes the form class and the form's string prefix), the
`initial` dict for the step, the model instance passed only for a ModelForm
class, and the bound `data`. -/
structure BoundForm where
  step : String
  initial : FormData
  inst : Option String
  data : Option FormData
deriving DecidableEq

/-- The wizard configuration built by `FormWizard.__init__`: `form_list` is
the SortedDict from step name to form class (an insertion-ordered association
list with unique keys), `initial_list` and `instance_list` the two lookup
dicts passed to `__init__`. -/
structure FormWizard where
  form_list : List (String × FormClass)
  initial_list : List (String × FormData)
  instance_list : List (String × String)

/-- Modelled from the spec: the `formwizard.storage` module is not among the
sources (only `forms.py` and `views.py` are), so the Wizard Run State a
backend persists is taken from the specification's storage contract —
`current_step` (a step identifier or absent), per-step raw submitted data
(`get_step_data` yields the stored mapping or none), and the free-form
`extra_context` mapping (values modelled as integers). -/
structure Storage where
  current_step : Option String
  step_data : List (String × FormData)
  extra_context : List (String × Int)
deriving DecidableEq

/-- Modelled from the spec: `get_current_step()` of the storage contract. -/
def Storage.get_current_step (st : Storage) : Option String :=
  st.current_step

/-- Modelled from the spec: `set_current_step(step)` of the storage contract. -/
def Storage.set_current_step (st : Storage) (s : String) : Storage :=
  { st with current_step := some s }

/-- Modelled from the spec: `get_step_data(step)` returns the stored raw
mapping for the step, or none if never submitted. -/
def Storage.get_step_data (st : Storage) (step : String) : Option FormData :=
  st.step_data.lookup step

/-- Modelled from the spec: `get_extra_context_data()` of the storage
contract. -/
def Storage.get_extra_context_data (st : Storage) : List (String × Int) :=
  st.extra_context

/-- Modelled from the spec: `set_extra_context_data(mapping)` of the storage
contract. -/
def Storage.set_extra_context_data (st : Storage) (d : List (String × Int)) :
    Storage :=
  { st with extra_context := d }

/-- Modelled from the spec: `reset()` clears all Wizard Run State for this
wizard/session scope. -/
def Storage.reset (_ : Storage) : Storage :=
  ⟨none, [], []⟩

/-- Python `d[k] = v` on a dict: overwrite in place when the key is present,
append otherwise.  Django's `SortedDict.__setitem__` and an (insertion
ordered) Python dict agree on this behaviour. -/
def pyDictSet {α : Type} (d : List (String × α)) (k : String) (v : α) :
    List (String × α) :=
  if d.any (fun p => p.1 = k) then
    d.map (fun p => if p.1 = k then (k, v) else p)
  else d ++ [(k, v)]

/-- Python `d.update(patch)`: assign each of patch's pairs into `d` in
order. -/
def pyDictUpdate {α : Type} (d patch : List (String × α)) :
    List (String × α) :=
  patch.foldl (fun acc p => pyDictSet acc p.1 p.2) d

/-- Python `x or y` for an optional string `x`: both `None` and the empty
string are falsy and select `y`. -/
def pyOrString (x : Option String) (y : String) : String :=
  match x with
  | none => y
  | some s => if s = "" then y else s

/-- One entry of the `form_list` argument of `FormWizard.__init__`: either a
`(step_name, form_class)` tuple or a bare form class (keyed by its position's
string form). -/
inductive FormListEntry
  | tup (name : String) (cls : FormClass)
  | bare (cls : FormClass)

/-- The construction loop of `FormWizard.__init__`: for each index `i`, a
tuple entry does `self.form_list[unicode(form[0])] = form[1]` and a bare
entry `self.form_list[unicode(i)] = form` — SortedDict assignment, so an
already-present key keeps its position and has its value overwritten. -/
def buildFormList (entries : List FormListEntry) : List (String × FormClass) :=
  entries.enum.foldl
    (fun d p =>
      match p.2 with
      | .tup name cls => pyDictSet d name cls
      | .bare cls => pyDictSet d (toString p.1) cls)
    []

/-- Models `FormWizard.__init__`: `assert len(form_list) > 0` (the failed
assertion is the error case), then the SortedDict construction loop.  The
`done_view` completion handler and the storage backend name are not part of
the configuration data the claims quantify over. -/
def FormWizard.init (entries : List FormListEntry)
    (initial_list : List (String × FormData))
    (instance_list : List (String × String)) : Except String FormWizard :=
  if entries.length > 0 then
    .ok ⟨buildFormList entries, initial_list, instance_list⟩
  else
    .error "at least one form is needed"

/-- The key order of the wizard's SortedDict, `self.form_list.keys()` /
`self.form_list.keyOrder`. -/
def FormWizard.keys (w : FormWizard) : List String :=
  w.form_list.map Prod.fst

/-- Models `FormWizard.get_first_step`: `self.form_list.keys()[0]`.  The
default `""` is never reached for a wizard built by `__init__`, whose
assertion guarantees a non-empty form list. -/
def FormWizard.get_first_step (w : FormWizard) : String :=
  w.keys.headD ""

/-- Models `FormWizard.get_last_step`: `self.form_list.keys()[-1]`, with the
same remark on the unreachable default as `get_first_step`. -/
def FormWizard.get_last_step (w : FormWizard) : String :=
  w.keys.getLastD ""

/-- Models `FormWizard.determine_step`:
`self.storage.get_current_step() or self.get_first_step()` — Python `or`, so
a falsy stored step (absent, or the empty string) selects the first step. -/
def FormWizard.determine_step (w : FormWizard) (st : Storage) : String :=
  pyOrString st.get_current_step w.get_first_step

/-- Models `FormWizard.get_next_step`: `key = keyOrder.index(step) + 1`, then
`keyOrder[key]` when `len(keyOrder) > key`, else `None`.  The claims only
apply it to configured steps, where `List.indexOf` agrees with Python's
`list.index`. -/
def FormWizard.get_next_step (w : FormWizard) (st : Storage)
    (step : Option String) : Option String :=
  let s := step.getD (w.determine_step st)
  let key := w.keys.indexOf s + 1
  if w.keys.length > key then some (w.keys.getD key "") else none

/-- Models `FormWizard.get_prev_step`: `key = keyOrder.index(step) - 1`, then
`None` when `key < 0`, else `keyOrder[key]` (the subtraction is on Python
ints, hence the `Int` here). -/
def FormWizard.get_prev_step (w : FormWizard) (st : Storage)
    (step : Option String) : Option String :=
  let s := step.getD (w.determine_step st)
  let key : Int := (w.keys.indexOf s : Int) - 1
  if key < 0 then none else some (w.keys.getD key.toNat "")

/-- Models `FormWizard.get_step_index`: `self.form_list.keyOrder.index(step)`
for the given step, or for the current step when none is given. -/
def FormWizard.get_step_index (w : FormWizard) (st : Storage)
    (step : Option String) : Nat :=
  w.keys.indexOf (step.getD (w.determine_step st))

/-- Models `FormWizard.get_form_initial`: `self.initial_list.get(step, {})`. -/
def FormWizard.get_form_initial (w : FormWizard) (step : String) : FormData :=
  (w.initial_list.lookup step).getD []

/-- Models `FormWizard.get_form_instance`:
`self.instance_list.get(step, None)`. -/
def FormWizard.get_form_instance (w : FormWizard) (step : String) :
    Option String :=
  w.instance_list.lookup step

/-- Models `FormWizard.get_form`: builds the form for `step` (the current
step when none is given) with the step's initial data, an `instance` only
when the step's class is a ModelForm, and `data` as the bound data.  The form
class and the string prefix are both determined by the step name and are not
repeated in the record.  The claims only build forms for configured steps,
where `self.form_list[step]` cannot raise `KeyError`. -/
def FormWizard.get_form (w : FormWizard) (st : Storage) (step : Option String)
    (data : Option FormData) : BoundForm :=
  let s := step.getD (w.determine_step st)
  { step := s
    initial := w.get_form_initial s
    inst :=
      if ((w.form_list.lookup s).map FormClass.isModelForm).getD false then
        w.get_form_instance s
      else none
    data := data }

/-- The `form_obj.is_valid()` call on a form `get_form` built: the step's
form class applied to the bound data. -/
def FormWizard.form_is_valid (w : FormWizard) (f : BoundForm) : Bool :=
  match w.form_list.lookup f.step with
  | some cls => cls.is_valid f.data
  | none => false

/-- The `form_obj.cleaned_data` attribute of a form `get_form` built. -/
def FormWizard.form_cleaned_data (w : FormWizard) (f : BoundForm) :
    CleanedData :=
  match w.form_list.lookup f.step with
  | some cls => cls.cleaned_data f.data
  | none => .dict []

/-- The possible outcomes of the request-handling paths the claims exercise.
`rendered` is a `self.render(request, form)` response together with the
storage as the handler left it; `done` is the `self.done(request,
final_form_list)` completion call; `attributeError` is a Python
`AttributeError` raised by looking up a method the object does not define;
`dispatched` is the fall-through of `_process_request` to the step-view
lookup, with the storage it hands over. -/
inductive WizardResponse
  | rendered (st : Storage) (form : BoundForm)
  | done (st : Storage) (forms : List BoundForm)
  | attributeError (missing : String)
  | dispatched (st : Storage)
deriving DecidableEq

/-- Models `FormWizard.render_revalidation_failure`: set the current step to
the failing step, then render that form. -/
def FormWizard.render_revalidation_failure (w : FormWizard) (st : Storage)
    (step : String) (form : BoundForm) : WizardResponse :=
  .rendered (st.set_current_step step) form

/-- The `for form_key in self.form_list.keys()` loop of
`FormWizard.render_done`, with `acc` the `final_form_list` accumulated so
far: rebuild each step's form from its stored data; on the first one that
does not validate, call `render_revalidation_failure`; when the loop ends,
call `done` with the ordered list. -/
def renderDoneLoop (w : FormWizard) (st : Storage) (acc : List BoundForm) :
    List String → WizardResponse
  | [] => .done st acc
  | form_key :: rest =>
    let form_obj := w.get_form st (some form_key) (st.get_step_data form_key)
    if w.form_is_valid form_obj then
      renderDoneLoop w st (acc ++ [form_obj]) rest
    else
      w.render_revalidation_failure st form_key form_obj

/-- Models `FormWizard.render_done` (the `finalize()` of the spec). -/
def FormWizard.render_done (w : FormWizard) (st : Storage) : WizardResponse :=
  renderDoneLoop w st [] w.keys

/-- Entries of the merged dictionary `get_all_cleaned_data` returns: a flatly
merged cleaned value, or the list of records a form-set step contributes. -/
inductive CEntry
  | val (v : String)
  | records (l : List Record)
deriving DecidableEq

/-- A cleaned record's pairs as entries of the merged dictionary. -/
def recordEntries (d : Record) : List (String × CEntry) :=
  d.map (fun p => (p.1, CEntry.val p.2))

/-- The loop body of `FormWizard.get_all_cleaned_data`: rebuild the step's
form from stored data; when it validates, `cleaned_dict.update(...)` with
either `{'formset-<step>': cleaned_data}` (list case) or the cleaned dict
itself; when it does not, leave `cleaned_dict` unchanged. -/
def allCleanedStep (w : FormWizard) (st : Storage)
    (cleaned_dict : List (String × CEntry)) (form_key : String) :
    List (String × CEntry) :=
  let form_obj := w.get_form st (some form_key) (st.get_step_data form_key)
  if w.form_is_valid form_obj then
    match w.form_cleaned_data form_obj with
    | .flist l => pyDictUpdate cleaned_dict [("formset-" ++ form_key, .records l)]
    | .dict d => pyDictUpdate cleaned_dict (recordEntries d)
  else cleaned_dict

/-- Models `FormWizard.get_all_cleaned_data`. -/
def FormWizard.get_all_cleaned_data (w : FormWizard) (st : Storage) :
    List (String × CEntry) :=
  w.keys.foldl (allCleanedStep w st) []

/-- Models `FormWizard.get_extra_context`:
`self.storage.get_extra_context_data()`. -/
def FormWizard.get_extra_context (_ : FormWizard) (st : Storage) :
    List (String × Int) :=
  st.get_extra_context_data

/-- Models `FormWizard.update_extra_context`: read the stored extra context,
`context.update(new_context)`, write the result back. -/
def FormWizard.update_extra_context (w : FormWizard) (st : Storage)
    (new_context : List (String × Int)) : Storage :=
  st.set_extra_context_data (pyDictUpdate (w.get_extra_context st) new_context)

/-- Models `FormWizard.reset_wizard`: `self.storage.reset()`. -/
def FormWizard.reset_wizard (_ : FormWizard) (st : Storage) : Storage :=
  st.reset

/-- An incoming HTTP request as `_process_request` inspects it: the method
string and the POST dict. -/
structure HttpRequest where
  method : String
  post : List (String × String)
deriving DecidableEq

/-- Models `FormWizard.render_backward`: set the current step to the POSTed
`form_prev_step`, then build the form for the step `determine_step` now
yields, bound to that step's stored data, and render it.  The POST key is
present whenever `_process_request` takes this branch, so the `getD ""`
default is unreachable from there. -/
def FormWizard.render_backward (w : FormWizard) (st : Storage)
    (req : HttpRequest) : WizardResponse :=
  let st1 := st.set_current_step ((req.post.lookup "form_prev_step").getD "")
  let form := w.get_form st1 none (st1.get_step_data (w.determine_step st1))
  .rendered st1 form

/-- Models `views._process_request`.  On GET it evaluates
`wizard.process_reset()` — a method `FormWizard` does not define (the class
defines `reset_wizard`), so the attribute lookup raises `AttributeError`,
modelled by the `attributeError` outcome.  On any other method it goes
backward when the POST names a configured `form_prev_step`, and otherwise
falls through to the step-view dispatch with the storage untouched. -/
def processRequest (w : FormWizard) (st : Storage) (req : HttpRequest) :
    WizardResponse :=
  if req.method = "GET" then
    .attributeError "process_reset"
  else
    match req.post.lookup "form_prev_step" with
    | some prev =>
      if (w.form_list.lookup prev).isSome then w.render_backward st req
      else .dispatched st
    | none => .dispatched st

/-- The form `render_done` and `get_all_cleaned_data` rebuild for step `k`:
the step's form bound to its stored data. -/
def doneForm (w : FormWizard) (st : Storage) (k : String) : BoundForm :=
  w.get_form st (some k) (st.get_step_data k)

/-- Step `k` currently revalidates against its stored data. -/
def stepRevalidates (w : FormWizard) (st : Storage) (k : String) : Bool :=
  w.form_is_valid (doneForm w st k)

/-- The contribution of a validating step to the merged cleaned-data mapping,
as the spec states it: a form-set step's list goes under the synthesized key
`formset-<step identifier>`, an ordinary step's cleaned dict merges flatly. -/
def stepContribution (w : FormWizard) (st : Storage) (k : String) :
    List (String × CEntry) :=
  match w.form_cleaned_data (doneForm w st k) with
  | .flist l => [("formset-" ++ k, .records l)]
  | .dict d => recordEntries d

/-! ### Concrete fixtures used by witnesses and counterexamples -/

/-- A single-required-text-field form class: valid exactly when bound data is
present and holds the field, cleaned data the field's value.  Unbound
(`data = none`) it is invalid, as a Django form is. -/
def textForm (field : String) : FormClass :=
  { is_valid := fun d => (d.bind (fun l => l.lookup field)).isSome
    cleaned_data := fun d =>
      .dict [(field, (d.bind (fun l => l.lookup field)).getD "")]
    isModelForm := false }

/-- A linear three-step wizard "a", "b", "c", one text field each. -/
def wiz3 : FormWizard :=
  ⟨[("a", textForm "fa"), ("b", textForm "fb"), ("c", textForm "fc")], [], []⟩

/-- Stored state for `wiz3`: every step has submitted data, current step "c". -/
def st3 : Storage :=
  ⟨some "c", [("a", [("fa", "1")]), ("b", [("fb", "2")]), ("c", [("fc", "3")])], []⟩

/-- Stored state for `wiz3` whose step "a" data was tampered to an invalid
value (the required field is missing), steps "b" and "c" still valid. -/
def st3bad : Storage :=
  ⟨some "c", [("a", [("zz", "1")]), ("b", [("fb", "2")]), ("c", [("fc", "3")])], []⟩

/-- A wizard among whose configured step identifiers is the empty string (the
second step), as `FormWizard.__init__` builds from `[("x", f), ("", g)]`. -/
def wizEdge : FormWizard :=
  ⟨[("x", textForm "fx"), ("", textForm "fe")], [], []⟩

/-- Stored state whose current step is the (configured) empty identifier. -/
def stEdge : Storage :=
  ⟨some "", [("x", [("fx", "1")]), ("", [("fe", "2")])], []⟩

/-! ### Dictionary lemmas -/

theorem lookup_cons_self {α : Type} (k : String) (v : α) (t : List (String × α)) :
    ((k, v) :: t).lookup k = some v := by
  simp [List.lookup]

theorem lookup_cons_ne {α : Type} (k a : String) (v : α) (t : List (String × α))
    (h : k ≠ a) : ((a, v) :: t).lookup k = t.lookup k := by
  have hb : (k == a) = false := beq_eq_false_iff_ne.mpr h
  simp [List.lookup, hb]

theorem lookup_map_overwrite {α : Type} (k : String) (v : α) :
    ∀ d : List (String × α),
      (d.map (fun p => if p.1 = k then (k, v) else p)).lookup k =
        if d.any (fun p => p.1 = k) then some v else none := by
  intro d
  induction d with
  | nil => simp
  | cons a t ih =>
    obtain ⟨a1, a2⟩ := a
    rw [List.map_cons]
    by_cases ha : a1 = k
    · rw [if_pos ha, lookup_cons_self]
      simp [ha]
    · rw [if_neg ha, lookup_cons_ne _ _ _ _ (Ne.symm ha), ih]
      have hd : (decide (a1 = k)) = false := decide_eq_false_iff_not.mpr ha
      simp only [List.any_cons, hd, Bool.false_or]

theorem lookup_map_ne {α : Type} (k k' : String) (v : α) (h : k' ≠ k) :
    ∀ d : List (String × α),
      (d.map (fun p => if p.1 = k then (k, v) else p)).lookup k' = d.lookup k' := by
  intro d
  induction d with
  | nil => rfl
  | cons a t ih =>
    obtain ⟨a1, a2⟩ := a
    rw [List.map_cons]
    by_cases ha : a1 = k
    · subst ha
      rw [if_pos rfl, lookup_cons_ne _ _ _ _ h, lookup_cons_ne _ _ _ _ h, ih]
    · rw [if_neg ha]
      by_cases hk : k' = a1
      · subst hk
        rw [lookup_cons_self, lookup_cons_self]
      · rw [lookup_cons_ne _ _ _ _ hk, lookup_cons_ne _ _ _ _ hk, ih]

theorem lookup_append_new {α : Type} (k : String) (v : α) :
    ∀ d : List (String × α), (∀ p ∈ d, p.1 ≠ k) →
      (d ++ [(k, v)]).lookup k = some v := by
  intro d
  induction d with
  | nil => intro _; rw [List.nil_append, lookup_cons_self]
  | cons a t ih =>
    intro h
    obtain ⟨a1, a2⟩ := a
    rw [List.cons_append,
      lookup_cons_ne _ _ _ _ (Ne.symm (h (a1, a2) (List.mem_cons_self _ t)))]
    exact ih (fun p hp => h p (List.mem_cons_of_mem _ hp))

theorem lookup_append_ne {α : Type} (k k' : String) (v : α) (h : k' ≠ k) :
    ∀ d : List (String × α), (d ++ [(k, v)]).lookup k' = d.lookup k' := by
  intro d
  induction d with
  | nil => rw [List.nil_append, lookup_cons_ne _ _ _ _ h]
  | cons a t ih =>
    obtain ⟨a1, a2⟩ := a
    by_cases hk : k' = a1
    · subst hk
      rw [List.cons_append, lookup_cons_self, lookup_cons_self]
    · rw [List.cons_append, lookup_cons_ne _ _ _ _ hk, lookup_cons_ne _ _ _ _ hk, ih]

theorem lookup_pyDictSet_self {α : Type} (d : List (String × α)) (k : String)
    (v : α) : (pyDictSet d k v).lookup k = some v := by
  unfold pyDictSet
  by_cases h : d.any (fun p => p.1 = k)
  · rw [if_pos h, lookup_map_overwrite, if_pos h]
  · rw [if_neg h]
    refine lookup_append_new k v d ?_
    intro p hp hpk
    exact h (List.any_eq_true.mpr ⟨p, hp, by simp [hpk]⟩)

theorem lookup_pyDictSet_ne {α : Type} (d : List (String × α)) (k k' : String)
    (v : α) (h : k' ≠ k) : (pyDictSet d k v).lookup k' = d.lookup k' := by
  unfold pyDictSet
  split
  · exact lookup_map_ne k k' v h d
  · exact lookup_append_ne k k' v h d

theorem lookup_pyDictUpdate_not_mem {α : Type} (patch : List (String × α))
    (k : String) (h : ∀ p ∈ patch, p.1 ≠ k) :
    ∀ d : List (String × α), (pyDictUpdate d patch).lookup k = d.lookup k := by
  induction patch with
  | nil => intro d; rfl
  | cons a t ih =>
    intro d
    have step : (pyDictSet d a.1 a.2).lookup k = d.lookup k :=
      lookup_pyDictSet_ne d a.1 k a.2 (Ne.symm (h a (List.mem_cons_self a t)))
    calc (pyDictUpdate d (a :: t)).lookup k
        = (pyDictUpdate (pyDictSet d a.1 a.2) t).lookup k := rfl
      _ = (pyDictSet d a.1 a.2).lookup k :=
          ih (fun p hp => h p (List.mem_cons_of_mem a hp)) _
      _ = d.lookup k := step

theorem lookup_pyDictUpdate_mem {α : Type} (patch : List (String × α))
    (k : String) (v : α) (hnd : (patch.map Prod.fst).Nodup)
    (h : patch.lookup k = some v) :
    ∀ d : List (String × α), (pyDictUpdate d patch).lookup k = some v := by
  induction patch with
  | nil => intro d; simp [List.lookup] at h
  | cons a t ih =>
    intro d
    simp only [List.map_cons, List.nodup_cons] at hnd
    by_cases ha : a.1 = k
    · have hb : (k == a.1) = true := by simp [ha]
      have hv : v = a.2 := by
        simp only [List.lookup, hb] at h
        exact (Option.some_inj.mp h).symm
      have hnot : ∀ p ∈ t, p.1 ≠ k := by
        intro p hp hpk
        apply hnd.1
        rw [ha, ← hpk]
        exact List.mem_map_of_mem Prod.fst hp
      calc (pyDictUpdate d (a :: t)).lookup k
          = (pyDictUpdate (pyDictSet d a.1 a.2) t).lookup k := rfl
        _ = (pyDictSet d a.1 a.2).lookup k := lookup_pyDictUpdate_not_mem t k hnot _
        _ = some a.2 := by rw [← ha]; exact lookup_pyDictSet_self d a.1 a.2
        _ = some v := by rw [hv]
    · have hb : (k == a.1) = false := beq_eq_false_iff_ne.mpr (Ne.symm ha)
      simp only [List.lookup, hb] at h
      exact ih hnd.2 h _

theorem lookup_none_forall_ne {α : Type} (k : String) :
    ∀ patch : List (String × α), patch.lookup k = none → ∀ p ∈ patch, p.1 ≠ k := by
  intro patch
  induction patch with
  | nil => intro _ p hp; cases hp
  | cons a t ih =>
    intro h p hp
    obtain ⟨a1, a2⟩ := a
    by_cases hk : k = a1
    · exfalso
      subst hk
      rw [lookup_cons_self] at h
      exact Option.some_ne_none _ h
    · rcases List.mem_cons.mp hp with rfl | hp2
      · exact fun e => hk e.symm
      · rw [lookup_cons_ne _ _ _ _ hk] at h
        exact ih h p hp2

/-! ### The claims -/

/-- C8: `determine_current_step()` returns the current step stored in the
storage backend if one is set (set meaning Python-truthy, the reading the
code's `or` gives it and the falsy rule of C10 makes precise), and
otherwise the first configured step; it is a total function of wizard and
storage, so two calls with no intervening storage mutation agree. -/
theorem C8_determine_step_contract (w : FormWizard) (st : Storage) :
    (∀ s : String, st.get_current_step = some s → s ≠ "" →
        w.determine_step st = s) ∧
    (st.get_current_step = none → w.determine_step st = w.get_first_step) ∧
    w.determine_step st = w.determine_step st := by
  refine ⟨?_, ?_, rfl⟩
  · intro s hs hne
    unfold FormWizard.determine_step
    rw [hs]
    simp [pyOrString, hne]
  · intro h
    unfold FormWizard.determine_step
    rw [h]
    rfl

/-- C10: `determine_step` treats every falsy stored current step as absent —
both an unset step and a stored empty string yield the first configured step,
even when the empty string is itself a configured step identifier (nothing in
the code consults the configured steps here). -/
theorem C10_falsy_current_step (w : FormWizard) (st : Storage)
    (h : st.get_current_step = none ∨ st.get_current_step = some "") :
    w.determine_step st = w.get_first_step := by
  unfold FormWizard.determine_step
  rcases h with h | h <;> rw [h] <;> simp [pyOrString]

/-- Witness for C10 at a wizard whose configured steps are "x" and "" and
whose stored current step is the configured empty string: `determine_step`
nonetheless returns the first step "x". -/
theorem C10_witness :
    ("" ∈ wizEdge.keys) ∧
      wizEdge.determine_step stEdge = wizEdge.get_first_step ∧
      wizEdge.get_first_step = "x" :=
  ⟨by decide, C10_falsy_current_step wizEdge stEdge (Or.inr rfl), rfl⟩

/-- C3 (code-bug evidence): on every GET request `_process_request` evaluates
`wizard.process_reset()`, an attribute `FormWizard` never defines, so the
request raises `AttributeError` instead of resetting and rendering the first
step.  The remaining conjuncts show the claimed post-reset state is exactly
what `reset_wizard` (the method that exists but is never called) would
establish: `determine_step` back to the first step, and no stored step data
for any step. -/
theorem C3_get_raises_attribute_error (w : FormWizard) (st : Storage)
    (post : List (String × String)) :
    processRequest w st ⟨"GET", post⟩ = .attributeError "process_reset" ∧
    w.determine_step (w.reset_wizard st) = w.get_first_step ∧
    (∀ k : String, (w.reset_wizard st).get_step_data k = none) := by
  refine ⟨?_, rfl, fun k => rfl⟩
  unfold processRequest
  simp

/-- C2 counterexample: configuring with two steps that share the identifier
"a" does not fail — `__init__` returns a wizard whose single "a" entry holds
the later form class (SortedDict assignment overwrote the earlier one). -/
theorem C2_counterexample :
    FormWizard.init [.tup "a" (textForm "fa"), .tup "a" (textForm "fb")] [] [] =
      .ok ⟨[("a", textForm "fb")], [], []⟩ := rfl

/-- C2 as amended: configuring with an empty step sequence fails (the failed
`assert`, the spec's ConfigurationError), and any non-empty sequence
succeeds; two entries sharing an identifier are silently collapsed into one
entry holding the later form class, rather than failing. -/
theorem C2_amended_config (e : FormListEntry) (es : List FormListEntry)
    (k : String) (f1 f2 : FormClass)
    (i : List (String × FormData)) (j : List (String × String)) :
    FormWizard.init [] i j = .error "at least one form is needed" ∧
    (FormWizard.init (e :: es) i j).isOk = true ∧
    buildFormList [.tup k f1, .tup k f2] = [(k, f2)] := by
  refine ⟨rfl, ?_, ?_⟩
  · have hok : FormWizard.init (e :: es) i j = .ok ⟨buildFormList (e :: es), i, j⟩ := by
      unfold FormWizard.init
      rw [if_pos (by simp : (e :: es).length > 0)]
    rw [hok]
    rfl
  · show pyDictSet (pyDictSet [] k f1) k f2 = [(k, f2)]
    have h1 : pyDictSet ([] : List (String × FormClass)) k f1 = [(k, f1)] := rfl
    rw [h1]
    simp [pyDictSet]

/-- C9: `update_extra_context(patch)` reads the stored extra context, merges
the patch over it — a key present in the patch takes the patch's value, a key
absent from the patch keeps its stored value — and writes the merge back; the
last conjunct is the spec's example chain, starting from x=1, updating with
y=2 and then x=3. -/
theorem C9_update_extra_context_merge (w : FormWizard) (st : Storage)
    (patch : List (String × Int)) (hnd : (patch.map Prod.fst).Nodup) :
    (∀ k v, patch.lookup k = some v →
        (w.update_extra_context st patch).get_extra_context_data.lookup k =
          some v) ∧
    (∀ k, patch.lookup k = none →
        (w.update_extra_context st patch).get_extra_context_data.lookup k =
          st.get_extra_context_data.lookup k) ∧
    (wiz3.update_extra_context
        (wiz3.update_extra_context ⟨none, [], [("x", 1)]⟩ [("y", 2)])
        [("x", 3)]).get_extra_context_data = [("x", 3), ("y", 2)] := by
  refine ⟨?_, ?_, rfl⟩
  · intro k v h
    exact lookup_pyDictUpdate_mem patch k v hnd h st.extra_context
  · intro k h
    exact lookup_pyDictUpdate_not_mem patch k
      (lookup_none_forall_ne k patch h) st.extra_context

/-- Witness for C9 at the spec's own example: after updating stored extra
context x=1 with the patch y=2, the merged context holds y=2. -/
theorem C9_witness :
    (wiz3.update_extra_context ⟨none, [], [("x", 1)]⟩
        [("y", 2)]).get_extra_context_data.lookup "y" = some 2 :=
  (C9_update_extra_context_merge wiz3 ⟨none, [], [("x", 1)]⟩ [("y", 2)]
    (by decide)).1 "y" 2 rfl

theorem getLastD_eq_getLast (l : List String) (h : l ≠ []) :
    l.getLastD "" = l.getLast h := by
  rw [List.getLastD_eq_getLast?, List.getLast?_eq_getLast_of_ne_nil h,
    Option.getD_some]

theorem indexOf_getLast_nodup (l : List String) (h : l ≠ []) (hnd : l.Nodup) :
    l.indexOf (l.getLast h) = l.length - 1 := by
  rw [List.getLast_eq_getElem]
  exact List.indexOf_getElem hnd _ _

/-- C4: for every wizard with at least one configured step (with the distinct
identifiers the SortedDict of `__init__` guarantees), `get_first_step`
returns the first configured identifier, `get_last_step` the last one,
`get_next_step` of the last step is the none sentinel, and `get_prev_step`
of the first step is the none sentinel. -/
theorem C4_boundary_steps (w : FormWizard) (st : Storage) (k : String)
    (ks : List String) (hk : w.keys = k :: ks) (hnd : w.keys.Nodup) :
    w.get_first_step = k ∧
    w.get_last_step = (k :: ks).getLast (List.cons_ne_nil k ks) ∧
    w.get_next_step st (some w.get_last_step) = none ∧
    w.get_prev_step st (some w.get_first_step) = none := by
  have hne : w.keys ≠ [] := by rw [hk]; exact List.cons_ne_nil k ks
  have hpos : 0 < w.keys.length := List.length_pos.mpr hne
  have hfirst : w.get_first_step = k := by
    unfold FormWizard.get_first_step
    rw [hk]
    rfl
  have hlastg : w.get_last_step = w.keys.getLast hne := getLastD_eq_getLast _ hne
  have hlast : w.get_last_step = (k :: ks).getLast (List.cons_ne_nil k ks) := by
    rw [hlastg]
    simp only [hk]
  refine ⟨hfirst, hlast, ?_, ?_⟩
  · unfold FormWizard.get_next_step
    simp only [Option.getD_some]
    have hlen : w.keys.length - 1 + 1 = w.keys.length := by omega
    rw [hlastg, indexOf_getLast_nodup _ hne hnd, hlen]
    exact if_neg (lt_irrefl _)
  · unfold FormWizard.get_prev_step
    simp only [Option.getD_some]
    rw [hfirst, hk, List.indexOf_cons_self]
    rw [if_pos (by norm_num)]

/-- Witness for C4 at the three-step wizard "a", "b", "c". -/
theorem C4_witness :
    wiz3.get_first_step = "a" ∧
    wiz3.get_last_step = (("a" : String) :: ["b", "c"]).getLast
      (List.cons_ne_nil "a" ["b", "c"]) ∧
    wiz3.get_next_step st3 (some wiz3.get_last_step) = none ∧
    wiz3.get_prev_step st3 (some wiz3.get_first_step) = none :=
  C4_boundary_steps wiz3 st3 "a" ["b", "c"] rfl (by decide)

/-- C5: whenever `get_next_step` of a configured step `s` is not the none
sentinel, the step index of that next step equals the step index of `s`
plus one. -/
theorem C5_next_step_index (w : FormWizard) (st : Storage) (s t : String)
    (hnd : w.keys.Nodup) (_hs : s ∈ w.keys)
    (hnext : w.get_next_step st (some s) = some t) :
    w.get_step_index st (some t) = w.get_step_index st (some s) + 1 := by
  unfold FormWizard.get_next_step at hnext
  simp only [Option.getD_some] at hnext
  by_cases hlt : w.keys.length > w.keys.indexOf s + 1
  · rw [if_pos hlt] at hnext
    have ht : t = w.keys.getD (w.keys.indexOf s + 1) "" :=
      (Option.some_inj.mp hnext).symm
    unfold FormWizard.get_step_index
    simp only [Option.getD_some]
    rw [ht, List.getD_eq_getElem _ _ hlt]
    exact List.indexOf_getElem hnd _ _
  · rw [if_neg hlt] at hnext
    cases hnext

/-- Witness for C5: in the three-step wizard, the step after "a" is "b" and
its index is one more than the index of "a". -/
theorem C5_witness :
    wiz3.get_step_index st3 (some "b") = wiz3.get_step_index st3 (some "a") + 1 :=
  C5_next_step_index wiz3 st3 "a" "b" (by decide) (by decide) rfl

theorem renderDoneLoop_cons (w : FormWizard) (st : Storage)
    (acc : List BoundForm) (a : String) (t : List String) :
    renderDoneLoop w st acc (a :: t) =
      if stepRevalidates w st a then
        renderDoneLoop w st (acc ++ [doneForm w st a]) t
      else .rendered (st.set_current_step a) (doneForm w st a) := rfl

theorem renderDoneLoop_fail (w : FormWizard) (st : Storage) (k : String) :
    ∀ (l : List String) (acc : List BoundForm),
      l.find? (fun j => ! stepRevalidates w st j) = some k →
      renderDoneLoop w st acc l =
        .rendered (st.set_current_step k) (doneForm w st k) := by
  intro l
  induction l with
  | nil => intro acc h; cases h
  | cons a t ih =>
    intro acc h
    by_cases hv : stepRevalidates w st a
    · rw [List.find?_cons_of_neg _ (by simp [hv])] at h
      rw [renderDoneLoop_cons, if_pos hv]
      exact ih _ h
    · rw [List.find?_cons_of_pos _ (by simp [hv])] at h
      have hk : k = a := (Option.some_inj.mp h).symm
      subst hk
      rw [renderDoneLoop_cons, if_neg hv]

theorem renderDoneLoop_ok (w : FormWizard) (st : Storage) :
    ∀ (l : List String) (acc : List BoundForm),
      l.find? (fun j => ! stepRevalidates w st j) = none →
      renderDoneLoop w st acc l = .done st (acc ++ l.map (doneForm w st)) := by
  intro l
  induction l with
  | nil => intro acc _; simp [renderDoneLoop]
  | cons a t ih =>
    intro acc h
    by_cases hv : stepRevalidates w st a
    · rw [List.find?_cons_of_neg _ (by simp [hv])] at h
      rw [renderDoneLoop_cons, if_pos hv, ih _ h]
      simp
    · rw [List.find?_cons_of_pos _ (by simp [hv])] at h
      cases h

/-- C1: `render_done` revalidates every configured step in configured order
against its stored data.  When some step fails, the result is the
revalidation-failure render for the first failing step, with the current
step set to that step, and the completion handler `done` is never invoked
(the outcome is `rendered`, not `done`).  When every step validates, `done`
is invoked with the ordered list of re-built validated forms and the storage
is untouched.  The last two conjuncts run both paths on the three-step
wizard: stored data for "a" tampered to an invalid value is detected and
rewinds to "a"; intact data completes. -/
theorem C1_render_done_contract (w : FormWizard) (st : Storage) :
    (∀ k : String, w.keys.find? (fun j => ! stepRevalidates w st j) = some k →
        w.render_done st =
          .rendered (st.set_current_step k) (doneForm w st k)) ∧
    (w.keys.find? (fun j => ! stepRevalidates w st j) = none →
        w.render_done st = .done st (w.keys.map (doneForm w st))) ∧
    wiz3.render_done st3bad =
      .rendered (st3bad.set_current_step "a") (doneForm wiz3 st3bad "a") ∧
    wiz3.render_done st3 = .done st3 (wiz3.keys.map (doneForm wiz3 st3)) := by
  refine ⟨?_, ?_, rfl, rfl⟩
  · intro k h
    exact renderDoneLoop_fail w st k w.keys [] h
  · intro h
    simpa using renderDoneLoop_ok w st w.keys [] h

theorem allCleanedStep_eq (w : FormWizard) (st : Storage)
    (acc : List (String × CEntry)) (k : String) :
    allCleanedStep w st acc k =
      if stepRevalidates w st k then pyDictUpdate acc (stepContribution w st k)
      else acc := by
  unfold allCleanedStep stepRevalidates stepContribution doneForm
  by_cases hv : w.form_is_valid (w.get_form st (some k) (st.get_step_data k))
  · rw [if_pos hv, if_pos hv]
    rcases hcd : w.form_cleaned_data (w.get_form st (some k) (st.get_step_data k))
      with d | l
    · simp only [hcd]
    · simp only [hcd]
  · rw [if_neg hv, if_neg hv]

theorem foldl_allCleaned_filter (w : FormWizard) (st : Storage) :
    ∀ (l : List String) (acc : List (String × CEntry)),
      l.foldl (allCleanedStep w st) acc =
        (l.filter (fun j => stepRevalidates w st j)).foldl
          (fun a j => pyDictUpdate a (stepContribution w st j)) acc := by
  intro l
  induction l with
  | nil => intro acc; rfl
  | cons a t ih =>
    intro acc
    rw [List.foldl_cons, allCleanedStep_eq]
    by_cases hv : stepRevalidates w st a
    · rw [if_pos hv, List.filter_cons_of_pos (by simp [hv]), List.foldl_cons, ih]
    · rw [if_neg hv, List.filter_cons_of_neg (by simp [hv]), ih]

/-- C6: `get_all_cleaned_data` merges, in configured order, the cleaned data
of exactly the configured steps that currently revalidate against their
stored data — invalid steps are silently skipped — where a step whose
cleaned data is a list contributes the single synthesized entry
`formset-<step identifier>` holding that list (see `stepContribution`)
instead of merging flatly. -/
theorem C6_all_cleaned_data (w : FormWizard) (st : Storage) :
    w.get_all_cleaned_data st =
      (w.keys.filter (fun j => stepRevalidates w st j)).foldl
        (fun a j => pyDictUpdate a (stepContribution w st j)) [] :=
  foldl_allCleaned_filter w st w.keys []

/-- C7 counterexample: `wizEdge` configures steps "x" and "" (the empty
identifier is configured, second in order) and `stEdge` stores data for
both.  A POST going back to the configured step "" does set the current step
to "", but the form rendered is step "x"'s form with "x"'s stored data —
`determine_step` treats the freshly stored "" as falsy — not step ""'s form
pre-filled from ""'s stored data, as the claim requires. -/
theorem C7_counterexample :
    processRequest wizEdge stEdge ⟨"POST", [("form_prev_step", "")]⟩ =
      .rendered (stEdge.set_current_step "")
        ⟨"x", [], none, some [("fx", "1")]⟩ ∧
    ("" ∈ wizEdge.keys) := by
  exact ⟨rfl, by decide⟩

/-- C7 as amended: when a POST names a previous step and the named identifier
is configured and non-empty, the dispatcher performs go-back — the current
step becomes the named step and that step's form is rendered, pre-filled
from its previously stored data.  A configured empty identifier is still
stored as current step, but the falsy-step rule makes `determine_step` fall
back to the first step, whose form is rendered instead (the
counterexample).  When the named identifier is not configured, the request
falls through to default step handling with the storage unchanged. -/
theorem C7_go_back (w : FormWizard) (st : Storage) (req : HttpRequest)
    (prev : String) (hm : req.method ≠ "GET")
    (hp : req.post.lookup "form_prev_step" = some prev) :
    (∀ cls, w.form_list.lookup prev = some cls → prev ≠ "" →
        processRequest w st req =
          .rendered (st.set_current_step prev)
            (w.get_form (st.set_current_step prev) (some prev)
              (st.get_step_data prev))) ∧
    (w.form_list.lookup prev = none →
        processRequest w st req = .dispatched st) := by
  constructor
  · intro cls hcls hne
    have hdet : w.determine_step (st.set_current_step prev) = prev := by
      unfold FormWizard.determine_step
      simp [Storage.set_current_step, Storage.get_current_step, pyOrString, hne]
    unfold processRequest
    rw [if_neg hm]
    simp only [hp, hcls, Option.isSome_some, if_true]
    unfold FormWizard.render_backward
    simp only [hp, Option.getD_some, hdet]
    unfold FormWizard.get_form
    simp only [Option.getD_some, Option.getD_none, hdet]
    rfl
  · intro hnone
    unfold processRequest
    rw [if_neg hm]
    simp [hp, hnone]

/-- Witness for C7: from the three-step wizard at step "c", a POST going
back to "a" renders step "a"'s form bound to "a"'s stored data, with the
current step set to "a". -/
theorem C7_witness :
    processRequest wiz3 st3 ⟨"POST", [("form_prev_step", "a")]⟩ =
      .rendered (st3.set_current_step "a")
        (wiz3.get_form (st3.set_current_step "a") (some "a")
          (st3.get_step_data "a")) :=
  (C7_go_back wiz3 st3 ⟨"POST", [("form_prev_step", "a")]⟩ "a"
    (by decide) rfl).1 (textForm "fa") rfl (by decide)

end FormWizardLib
